import Mathlib

/-!
Shallow embedding of the OFI (Order Flow Imbalance) trading sentinel.

Prices, quantities and thresholds are `f64` in the source; they are embedded
as exact rationals (`ℚ`), so the algebraic structure of every computation is
preserved while rounding is abstracted away.  Timestamps are millisecond
epochs, embedded as `Nat` (the source's `u64`, whose `saturating_sub` is the
truncated subtraction of `Nat`).  Reason strings that the source builds with
numeric interpolation are embedded as their fixed textual core.
-/

namespace OFI

/-- One level of the order book (`data.rs`, `OrderBookLevel`). -/
structure OrderBookLevel where
  price : ℚ
  quantity : ℚ
deriving DecidableEq

/-- Latest order-book snapshot for a symbol (`data.rs`, `OrderBookSnapshot`). -/
structure OrderBookSnapshot where
  symbol : String
  bids : List OrderBookLevel
  asks : List OrderBookLevel
  timestamp : Nat
deriving DecidableEq

/-- A single trade (`data.rs`, `TradeData`); `side` is the string "buy" or "sell". -/
structure TradeData where
  symbol : String
  price : ℚ
  quantity : ℚ
  side : String
  timestamp : Nat
deriving DecidableEq

/-- OFI metrics record (`ofi.rs`, `OFIMetrics`). -/
structure OFIMetrics where
  symbol : String
  delta : ℚ
  cumulative_delta : ℚ
  buy_imbalance : ℚ
  sell_imbalance : ℚ
  timestamp : Nat
deriving DecidableEq

/-- Signal variants (`signals.rs`, `SignalType`). -/
inductive SignalType where
  | StrongBuy
  | StrongSell
  | Buy
  | Sell
  | NoSignal
deriving DecidableEq

/-- A trading signal (`signals.rs`, `TradingSignal`). -/
structure TradingSignal where
  symbol : String
  signal_type : SignalType
  price : ℚ
  confidence : ℚ
  reason : String
  timestamp : Nat
deriving DecidableEq

/-- Strategy parameters (`signals.rs`, `StrategyParams`). -/
structure StrategyParams where
  imbalance_threshold : ℚ
  absorption_threshold : ℚ
  delta_threshold : ℚ
  lookback_period_ms : Nat
  market_condition_multiplier : ℚ
deriving DecidableEq

/-- `signals.rs` `TradingSignal::no_signal_with_reason`. -/
def TradingSignal.no_signal_with_reason (symbol : String) (reason : String) : TradingSignal :=
  { symbol := symbol
    signal_type := SignalType.NoSignal
    price := 0
    confidence := 0
    reason := reason
    timestamp := 0 }

/-- Loop body of `ofi.rs` `calculate_delta`: one pass accumulating buy and
sell volume separately, returning their difference at the end. -/
def calculate_delta_aux : List TradeData → ℚ → ℚ → ℚ
  | [], buy_volume, sell_volume => buy_volume - sell_volume
  | t :: rest, buy_volume, sell_volume =>
    let volume := t.price * t.quantity
    if t.side = "buy" then calculate_delta_aux rest (buy_volume + volume) sell_volume
    else if t.side = "sell" then calculate_delta_aux rest buy_volume (sell_volume + volume)
    else calculate_delta_aux rest buy_volume sell_volume

/-- `ofi.rs` `calculate_delta` (buy notional minus sell notional). -/
def calculate_delta (trades : List TradeData) : ℚ :=
  calculate_delta_aux trades 0 0

/-- Loop body of `ofi.rs` `calculate_cumulative_delta`: a single signed
accumulator. -/
def calculate_cumulative_delta_aux : List TradeData → ℚ → ℚ
  | [], acc => acc
  | t :: rest, acc =>
    let volume := t.price * t.quantity
    if t.side = "buy" then calculate_cumulative_delta_aux rest (acc + volume)
    else if t.side = "sell" then calculate_cumulative_delta_aux rest (acc - volume)
    else calculate_cumulative_delta_aux rest acc

/-- `ofi.rs` `calculate_cumulative_delta`. -/
def calculate_cumulative_delta (trades : List TradeData) : ℚ :=
  calculate_cumulative_delta_aux trades 0

/-- The signed notional sum of a trade list: price*quantity, buys positive,
sells negative, other sides ignored.  Both delta routines compute exactly
this value; it is the reference formula of the specification. -/
def signed_notional_sum : List TradeData → ℚ
  | [] => 0
  | t :: rest =>
    (if t.side = "buy" then t.price * t.quantity
     else if t.side = "sell" then -(t.price * t.quantity) else 0)
    + signed_notional_sum rest

/-- `ofi.rs` `calculate_imbalances`: book-side notional ratios. -/
def calculate_imbalances (order_book : OrderBookSnapshot) : ℚ × ℚ :=
  let total_buy_size := (order_book.bids.map (fun l => l.price * l.quantity)).sum
  let total_sell_size := (order_book.asks.map (fun l => l.price * l.quantity)).sum
  let buy_imbalance := if 0 < total_sell_size then total_buy_size / total_sell_size else 0
  let sell_imbalance := if 0 < total_buy_size then total_sell_size / total_buy_size else 0
  (buy_imbalance, sell_imbalance)

/-- The lookback filter of `ofi.rs` `calculate_ofi_metrics`: trades with
`timestamp >= now.saturating_sub(lookback)`. -/
def lookback_filter (trades : List TradeData) (now lookback_period_ms : Nat) :
    List TradeData :=
  trades.filter (fun t => decide (now - lookback_period_ms ≤ t.timestamp))

/-- `ofi.rs` `calculate_ofi_metrics`.  Note: both `delta` and
`cumulative_delta` are computed from `recent_trades`, the lookback-filtered
list. -/
def calculate_ofi_metrics (order_book : OrderBookSnapshot) (trades : List TradeData)
    (lookback_period_ms : Nat) : OFIMetrics :=
  let now := order_book.timestamp
  let recent_trades := lookback_filter trades now lookback_period_ms
  let delta := calculate_delta recent_trades
  let cumulative_delta := calculate_cumulative_delta recent_trades
  let imbalances := calculate_imbalances order_book
  { symbol := order_book.symbol
    delta := delta
    cumulative_delta := cumulative_delta
    buy_imbalance := imbalances.1
    sell_imbalance := imbalances.2
    timestamp := now }

/-- Notional size of `asks[0]` (`ofi.rs` line 148); 0-level default is only
reachable when `asks` is empty, which every caller excludes first. -/
def top_ask_size (order_book : OrderBookSnapshot) : ℚ :=
  (order_book.asks.headD ⟨0, 0⟩).price * (order_book.asks.headD ⟨0, 0⟩).quantity

/-- Notional size of `bids[0]` (`ofi.rs` line 179). -/
def top_bid_size (order_book : OrderBookSnapshot) : ℚ :=
  (order_book.bids.headD ⟨0, 0⟩).price * (order_book.bids.headD ⟨0, 0⟩).quantity

/-- Notional size of `bids[i]` (`ofi.rs` line 156). -/
def bid_size_at (order_book : OrderBookSnapshot) (i : Nat) : ℚ :=
  (order_book.bids.getD i ⟨0, 0⟩).price * (order_book.bids.getD i ⟨0, 0⟩).quantity

/-- Notional size of `asks[i]` (`ofi.rs` line 187). -/
def ask_size_at (order_book : OrderBookSnapshot) (i : Nat) : ℚ :=
  (order_book.asks.getD i ⟨0, 0⟩).price * (order_book.asks.getD i ⟨0, 0⟩).quantity

/-- `ofi.rs` `detect_stacked_buy_imbalance_advanced`. -/
def detect_stacked_buy_imbalance_advanced (order_book : OrderBookSnapshot)
    (threshold : ℚ) (levels_to_check required_levels : Nat) : Bool :=
  if order_book.bids.length < levels_to_check ∨ order_book.asks.isEmpty then false
  else if top_ask_size order_book = 0 then false
  else
    let imbalanced_levels :=
      ((List.range (min levels_to_check order_book.bids.length)).filter
        (fun i => decide (threshold ≤ bid_size_at order_book i / top_ask_size order_book))).length
    required_levels ≤ imbalanced_levels

/-- `ofi.rs` `detect_stacked_sell_imbalance_advanced`. -/
def detect_stacked_sell_imbalance_advanced (order_book : OrderBookSnapshot)
    (threshold : ℚ) (levels_to_check required_levels : Nat) : Bool :=
  if order_book.asks.length < levels_to_check ∨ order_book.bids.isEmpty then false
  else if top_bid_size order_book = 0 then false
  else
    let imbalanced_levels :=
      ((List.range (min levels_to_check order_book.asks.length)).filter
        (fun i => decide (threshold ≤ ask_size_at order_book i / top_bid_size order_book))).length
    required_levels ≤ imbalanced_levels

/-- `ofi.rs` `detect_stacked_buy_imbalance` (fixed constants L=5, K=3). -/
def detect_stacked_buy_imbalance (order_book : OrderBookSnapshot) (threshold : ℚ) : Bool :=
  detect_stacked_buy_imbalance_advanced order_book threshold 5 3

/-- `ofi.rs` `detect_stacked_sell_imbalance` (fixed constants L=5, K=3). -/
def detect_stacked_sell_imbalance (order_book : OrderBookSnapshot) (threshold : ℚ) : Bool :=
  detect_stacked_sell_imbalance_advanced order_book threshold 5 3

/-- `ofi.rs` `detect_stacked_imbalances`. -/
def detect_stacked_imbalances (order_book : OrderBookSnapshot) (threshold : ℚ) :
    Bool × Bool :=
  (detect_stacked_buy_imbalance order_book threshold,
   detect_stacked_sell_imbalance order_book threshold)

/-- `bids[0].price` as read by `detect_absorption` (`ofi.rs` line 212). -/
def best_bid_of (order_book : OrderBookSnapshot) : ℚ :=
  (order_book.bids.headD ⟨0, 0⟩).price

/-- `prev_best_bid` of `detect_absorption` (`ofi.rs` lines 215-219):
`bids[1].price` when a second level exists, else `bids[0].price`. -/
def prev_best_bid_of (order_book : OrderBookSnapshot) : ℚ :=
  if 1 < order_book.bids.length then (order_book.bids.getD 1 ⟨0, 0⟩).price
  else best_bid_of order_book

/-- `ofi.rs` `detect_absorption`.  The source interpolates the delta value
into the reason strings; the embedding keeps their fixed textual core. -/
def detect_absorption (order_book : OrderBookSnapshot) (trades : List TradeData)
    (ofi_metrics : OFIMetrics) (params : StrategyParams) :
    Bool × String × SignalType :=
  if order_book.bids.isEmpty ∨ trades.isEmpty then
    (false, "", SignalType.NoSignal)
  else
    let best_bid := best_bid_of order_book
    let prev_best_bid := prev_best_bid_of order_book
    let price_did_not_drop := prev_best_bid ≤ best_bid
    if ofi_metrics.delta < -params.delta_threshold ∧ price_did_not_drop then
      (true, "Buy absorption detected: large selling delta with no price drop.",
       SignalType.Buy)
    else
      let price_did_not_rise := best_bid ≤ prev_best_bid
      if params.delta_threshold < ofi_metrics.delta ∧ price_did_not_rise then
        (true, "Sell absorption detected: large buying delta with no price rise.",
         SignalType.Sell)
      else (false, "", SignalType.NoSignal)

/-- `best_bid` of `detect_signals` (`signals.rs` line 79):
`bids.first().map(|b| b.price).unwrap_or(0.0)`. -/
def best_bid_px (order_book : OrderBookSnapshot) : ℚ :=
  ((order_book.bids.head?).map OrderBookLevel.price).getD 0

/-- `best_ask` of `detect_signals` (`signals.rs` line 80). -/
def best_ask_px (order_book : OrderBookSnapshot) : ℚ :=
  ((order_book.asks.head?).map OrderBookLevel.price).getD 0

/-- `current_price` of `detect_signals` (`signals.rs` lines 81-85):
mid price if both sides positive, else the larger side. -/
def current_price_of (order_book : OrderBookSnapshot) : ℚ :=
  if 0 < best_bid_px order_book ∧ 0 < best_ask_px order_book then
    (best_bid_px order_book + best_ask_px order_book) / 2
  else max (best_bid_px order_book) (best_ask_px order_book)

/-- The parameter copy with market-condition-adjusted values
(`signals.rs` lines 95-101). -/
def adjusted_params_of (params : StrategyParams) : StrategyParams :=
  { imbalance_threshold := params.imbalance_threshold * params.market_condition_multiplier
    absorption_threshold := params.absorption_threshold * params.market_condition_multiplier
    delta_threshold := params.delta_threshold * params.market_condition_multiplier
    lookback_period_ms := params.lookback_period_ms
    market_condition_multiplier := params.market_condition_multiplier }

/-- The guard of rule 3 of `detect_signals` (`signals.rs` line 147):
`delta < -adjusted_threshold && cumulative_delta > adjusted_threshold * 2`. -/
def exhaustion_condition (ofi_metrics : OFIMetrics) (adjusted_delta_threshold : ℚ) : Bool :=
  decide (ofi_metrics.delta < -adjusted_delta_threshold
    ∧ adjusted_delta_threshold * 2 < ofi_metrics.cumulative_delta)

/-- `signals.rs` `detect_signals`: the rule engine, branches in source order. -/
def detect_signals (order_book : OrderBookSnapshot) (trades : List TradeData)
    (params : StrategyParams)
    (strong_signal_confidence reversal_signal_confidence exhaustion_signal_confidence : ℚ) :
    TradingSignal :=
  let ofi_metrics := calculate_ofi_metrics order_book trades params.lookback_period_ms
  let current_price := current_price_of order_book
  let adjusted_imbalance_threshold :=
    params.imbalance_threshold * params.market_condition_multiplier
  let adjusted_delta_threshold := params.delta_threshold * params.market_condition_multiplier
  let stacked := detect_stacked_imbalances order_book adjusted_imbalance_threshold
  let absorption_detected :=
    detect_absorption order_book trades ofi_metrics (adjusted_params_of params)
  if stacked.1 ∧ adjusted_delta_threshold < ofi_metrics.delta then
    { symbol := order_book.symbol
      signal_type := SignalType.StrongBuy
      price := current_price
      confidence := strong_signal_confidence
      reason := "Stacked buy imbalances with strong positive delta"
      timestamp := ofi_metrics.timestamp }
  else if stacked.2 ∧ ofi_metrics.delta < -adjusted_delta_threshold then
    { symbol := order_book.symbol
      signal_type := SignalType.StrongSell
      price := current_price
      confidence := strong_signal_confidence
      reason := "Stacked sell imbalances with strong negative delta"
      timestamp := ofi_metrics.timestamp }
  else if absorption_detected.1 then
    { symbol := order_book.symbol
      signal_type := absorption_detected.2.2
      price := current_price
      confidence := reversal_signal_confidence
      reason := absorption_detected.2.1
      timestamp := ofi_metrics.timestamp }
  else if exhaustion_condition ofi_metrics adjusted_delta_threshold then
    { symbol := order_book.symbol
      signal_type := SignalType.Sell
      price := current_price
      confidence := exhaustion_signal_confidence
      reason := "Potential exhaustion detected"
      timestamp := ofi_metrics.timestamp }
  else
    { symbol := order_book.symbol
      signal_type := SignalType.NoSignal
      price := current_price
      confidence := 0
      reason := "No significant signal detected"
      timestamp := ofi_metrics.timestamp }

/-- The eviction loop of `data.rs` `add_trade`: `while entry.len() > limit
\x7b entry.remove(0); \x7d`, removing the oldest entry from the front. -/
def trim_to_limit (limit : Nat) : List TradeData → List TradeData
  | [] => []
  | t :: rest =>
    if limit < rest.length + 1 then trim_to_limit limit rest
    else t :: rest

/-- `data.rs` `TradeStorage::add_trade`, restricted to the per-symbol entry:
push to the back, then evict from the front down to `limit`. -/
def add_trade (entry : List TradeData) (trade : TradeData) (limit : Nat) :
    List TradeData :=
  trim_to_limit limit (entry ++ [trade])

/-- A whole sequence of `add_trade` calls for one symbol, starting from the
empty entry that `or_default` creates for an unseen symbol. -/
def add_trade_seq (limit : Nat) (trades : List TradeData) : List TradeData :=
  trades.foldl (fun entry t => add_trade entry t limit) []

/-- `data.rs` `TradeStorage::get_recent_trades`, with the map lookup made
explicit: `trades.iter().rev().take(limit)` on a hit, empty on a miss. -/
def get_recent_trades (stored : Option (List TradeData)) (limit : Nat) :
    List TradeData :=
  match stored with
  | some trades => trades.reverse.take limit
  | none => []

/-- `engine.rs` `OFIEngine::analyze_symbol`, with the two store lookups made
explicit parameters: the stored snapshot (if any) and the stored per-symbol
trade list (if any). -/
def analyze_symbol (book : Option OrderBookSnapshot)
    (stored_trades : Option (List TradeData)) (params : StrategyParams)
    (strong_signal_confidence reversal_signal_confidence exhaustion_signal_confidence : ℚ)
    (symbol : String) : TradingSignal :=
  match book with
  | none => TradingSignal.no_signal_with_reason symbol "No order book data"
  | some order_book =>
    if order_book.bids.isEmpty ∨ order_book.asks.isEmpty then
      TradingSignal.no_signal_with_reason symbol "Order book is empty"
    else
      detect_signals order_book (get_recent_trades stored_trades 100) params
        strong_signal_confidence reversal_signal_confidence exhaustion_signal_confidence

/-- The deduplication window of `websocket.rs` (`Duration::from_secs(5)`),
in milliseconds. -/
def DEDUP_WINDOW_MS : Nat := 5000

/-- Dedup table: `(symbol, signal_type)` key (the source's formatted string)
to the `Instant` of the last admission, as milliseconds. -/
abbrev DedupState := List (String × Nat)

/-- The `retain` call of the dedup gate: keep entries younger than 5 s. -/
def dedup_retained (state : DedupState) (now : Nat) : DedupState :=
  state.filter (fun e => decide (now - e.2 < DEDUP_WINDOW_MS))

/-- The `contains_key` check of the dedup gate, after eviction. -/
def dedup_hit (state : DedupState) (key : String) (now : Nat) : Bool :=
  (dedup_retained state now).any (fun e => decide (e.1 = key))

/-- One pass of the dedup gate of `websocket.rs` `handle_message`
(lines 224-238): evict entries 5 s or older, drop the candidate if its key
is still present, otherwise record it and admit. -/
def dedup_step (state : DedupState) (key : String) (now : Nat) :
    Bool × DedupState :=
  if dedup_hit state key now then (false, dedup_retained state now)
  else (true, (key, now) :: dedup_retained state now)

/-- Run the dedup gate over a sequence of `(key, time)` candidates, tagging
each with its admission verdict. -/
def dedup_process (state : DedupState) : List (String × Nat) → List (String × Nat × Bool)
  | [] => []
  | c :: rest =>
    let r := dedup_step state c.1 c.2
    (c.1, c.2, r.1) :: dedup_process r.2 rest

/-- The dedup table left after running the gate over a candidate sequence. -/
def dedup_final_state (state : DedupState) : List (String × Nat) → DedupState
  | [] => state
  | c :: rest => dedup_final_state (dedup_step state c.1 c.2).2 rest

/-- The candidate list used by the supervisor's watchlist branch
(`main.rs` lines 421-438): on success it is the producer's list capped at
`max_candidates`; on failure the code substitutes the EMPTY list. -/
def watchlist_candidates (producer_result : Except String (List String))
    (max_candidates : Nat) : List String :=
  match producer_result with
  | Except.ok candidates =>
    if max_candidates < candidates.length then candidates.take max_candidates
    else candidates
  | Except.error _ => []

/-- Insertion loop of the watchlist branch (`main.rs` lines 470-488): start a
session for every candidate not already running. -/
def start_new_tasks (running : List String) : List String → List String
  | [] => running
  | c :: rest =>
    if running.contains c then start_new_tasks running rest
    else start_new_tasks (running ++ [c]) rest

/-- The supervisor's watchlist-reconciliation step (`main.rs` lines 421-488),
as the pair (running sessions afterwards, sessions signalled to stop). -/
def reconcile_watchlist (running : List String)
    (producer_result : Except String (List String)) (max_candidates : Nat) :
    List String × List String :=
  let new_candidates := watchlist_candidates producer_result max_candidates
  let symbols_to_stop := running.filter (fun s => !(new_candidates.contains s))
  let still_running := running.filter (fun s => new_candidates.contains s)
  (start_new_tasks still_running new_candidates, symbols_to_stop)

/-! ## Basic facts about the delta accumulators -/

theorem calculate_delta_aux_eq (ts : List TradeData) :
    ∀ b s : ℚ, calculate_delta_aux ts b s = b - s + signed_notional_sum ts := by
  induction ts with
  | nil => intro b s; simp [calculate_delta_aux, signed_notional_sum]
  | cons t rest ih =>
    intro b s
    simp only [calculate_delta_aux, signed_notional_sum]
    split_ifs with h1 h2 <;> rw [ih] <;> ring

theorem calculate_cumulative_delta_aux_eq (ts : List TradeData) :
    ∀ a : ℚ, calculate_cumulative_delta_aux ts a = a + signed_notional_sum ts := by
  induction ts with
  | nil => intro a; simp [calculate_cumulative_delta_aux, signed_notional_sum]
  | cons t rest ih =>
    intro a
    simp only [calculate_cumulative_delta_aux, signed_notional_sum]
    split_ifs with h1 h2 <;> rw [ih] <;> ring

theorem calculate_delta_eq_signed_sum (ts : List TradeData) :
    calculate_delta ts = signed_notional_sum ts := by
  simpa [calculate_delta] using calculate_delta_aux_eq ts 0 0

theorem calculate_cumulative_delta_eq_signed_sum (ts : List TradeData) :
    calculate_cumulative_delta ts = signed_notional_sum ts := by
  simpa [calculate_cumulative_delta] using calculate_cumulative_delta_aux_eq ts 0

/-- Claim C1, code bug: the specification states that `cumulative_delta` is the
signed notional sum over the ENTIRE supplied trades view, unfiltered; the code
applies the lookback filter to both sums.  At this concrete input — snapshot
timestamp 10000, lookback 1000 ms, a buy of notional 100 inside the window and
a sell of notional 50 at timestamp 1000, outside it — the code returns
`cumulative_delta = 100` (equal to `delta`), whereas the unfiltered signed sum
the claim specifies is 50. -/
theorem cumulative_delta_is_lookback_filtered :
    (calculate_ofi_metrics ⟨"BTCUSDT", [], [], 10000⟩
        [⟨"BTCUSDT", 100, 1, "buy", 10000⟩, ⟨"BTCUSDT", 50, 1, "sell", 1000⟩]
        1000).cumulative_delta = 100
    ∧ (calculate_ofi_metrics ⟨"BTCUSDT", [], [], 10000⟩
        [⟨"BTCUSDT", 100, 1, "buy", 10000⟩, ⟨"BTCUSDT", 50, 1, "sell", 1000⟩]
        1000).delta = 100
    ∧ signed_notional_sum
        [⟨"BTCUSDT", 100, 1, "buy", 10000⟩, ⟨"BTCUSDT", 50, 1, "sell", 1000⟩] = 50 := by
  refine ⟨?_, ?_, ?_⟩ <;>
    · simp +decide only [calculate_ofi_metrics, lookback_filter, calculate_delta,
        calculate_delta_aux, calculate_cumulative_delta, calculate_cumulative_delta_aux,
        signed_notional_sum, List.filter, if_true, if_false]
      norm_num

/-- Claim C2: both metrics are computed from the same lookback-filtered trade
list, so `delta = cumulative_delta` always; consequently, for every positive
adjusted delta threshold the exhaustion-rule guard
(`delta < -t && cumulative_delta > 2*t`) of `detect_signals` is false, and the
exhaustion Sell branch is unreachable. -/
theorem delta_eq_cumulative_delta_and_exhaustion_unreachable
    (order_book : OrderBookSnapshot) (trades : List TradeData) (lb : Nat) :
    (calculate_ofi_metrics order_book trades lb).delta
      = (calculate_ofi_metrics order_book trades lb).cumulative_delta
    ∧ ∀ t : ℚ, 0 < t →
        exhaustion_condition (calculate_ofi_metrics order_book trades lb) t = false := by
  have hdelta : (calculate_ofi_metrics order_book trades lb).delta
      = signed_notional_sum (lookback_filter trades order_book.timestamp lb) := by
    simpa [calculate_ofi_metrics] using
      calculate_delta_eq_signed_sum (lookback_filter trades order_book.timestamp lb)
  have hcum : (calculate_ofi_metrics order_book trades lb).cumulative_delta
      = signed_notional_sum (lookback_filter trades order_book.timestamp lb) := by
    simpa [calculate_ofi_metrics] using
      calculate_cumulative_delta_eq_signed_sum (lookback_filter trades order_book.timestamp lb)
  refine ⟨hdelta.trans hcum.symm, ?_⟩
  intro t ht
  simp only [exhaustion_condition, decide_eq_false_iff_not, not_and, not_lt]
  intro h1
  rw [hcum, ← hdelta]
  nlinarith [hdelta, h1]

theorem delta_eq_cumulative_delta_witness :
    (calculate_ofi_metrics ⟨"ETHUSDT", [], [], 0⟩ [] 0).delta
      = (calculate_ofi_metrics ⟨"ETHUSDT", [], [], 0⟩ [] 0).cumulative_delta
    ∧ exhaustion_condition (calculate_ofi_metrics ⟨"ETHUSDT", [], [], 0⟩ [] 0) 1 = false :=
  ⟨(delta_eq_cumulative_delta_and_exhaustion_unreachable ⟨"ETHUSDT", [], [], 0⟩ [] 0).1,
   (delta_eq_cumulative_delta_and_exhaustion_unreachable ⟨"ETHUSDT", [], [], 0⟩ [] 0).2 1
     (by norm_num)⟩

/-- Claim C3, code bug: when the watchlist producer fails, the supervisor
substitutes the EMPTY candidate list; the reconciliation then computes
`symbols_to_stop = running \ ∅ = running` and stops every running session,
instead of leaving the set unchanged as the specification (and the code's own
comment about continuing with the old watchlist) requires.  Concretely, with
one session "BTCUSDT" running, a producer failure yields a new running set of
`[]` and stop signals for `["BTCUSDT"]`. -/
theorem producer_failure_stops_all_sessions :
    reconcile_watchlist ["BTCUSDT"] (Except.error "screener failure") 10
      = ([], ["BTCUSDT"]) := by
  decide

/-- Claim C4: when the stored snapshot has empty bids or empty asks,
`analyze_symbol` returns the NoSignal record with price 0, confidence 0 and
reason "Order book is empty". -/
theorem empty_book_yields_no_signal (book : OrderBookSnapshot)
    (stored_trades : Option (List TradeData)) (params : StrategyParams)
    (sc rc ec : ℚ) (symbol : String)
    (h : book.bids = [] ∨ book.asks = []) :
    analyze_symbol (some book) stored_trades params sc rc ec symbol
      = { symbol := symbol
          signal_type := SignalType.NoSignal
          price := 0
          confidence := 0
          reason := "Order book is empty"
          timestamp := 0 } := by
  have hcond : book.bids.isEmpty = true ∨ book.asks.isEmpty = true := by
    rcases h with h | h <;> simp [h]
  simp only [analyze_symbol]
  rw [if_pos hcond]
  rfl

theorem empty_book_yields_no_signal_witness :
    analyze_symbol (some ⟨"ETHUSDT", [], [⟨10, 1⟩], 5⟩) none ⟨1, 1, 1, 1000, 1⟩
        1 1 1 "ETHUSDT"
      = { symbol := "ETHUSDT"
          signal_type := SignalType.NoSignal
          price := 0
          confidence := 0
          reason := "Order book is empty"
          timestamp := 0 } :=
  empty_book_yields_no_signal ⟨"ETHUSDT", [], [⟨10, 1⟩], 5⟩ none ⟨1, 1, 1, 1000, 1⟩
    1 1 1 "ETHUSDT" (Or.inl rfl)

/-! ## The bounded FIFO trade store -/

theorem trim_to_limit_eq_drop (L : Nat) (e : List TradeData) :
    trim_to_limit L e = e.drop (e.length - L) := by
  induction e with
  | nil => simp [trim_to_limit]
  | cons t rest ih =>
    simp only [trim_to_limit, List.length_cons]
    split_ifs with h
    · have hidx : rest.length + 1 - L = (rest.length - L) + 1 := by omega
      rw [hidx, List.drop_succ_cons, ih]
    · have hidx : rest.length + 1 - L = 0 := by omega
      rw [hidx, List.drop_zero]

theorem add_trade_eq_drop (e : List TradeData) (t : TradeData) (L : Nat) :
    add_trade e t L = (e ++ [t]).drop (e.length + 1 - L) := by
  rw [add_trade, trim_to_limit_eq_drop]
  simp

theorem add_trade_seq_eq_drop (L : Nat) (hL : 0 < L) (ts : List TradeData) :
    add_trade_seq L ts = ts.drop (ts.length - L) := by
  induction ts using List.reverseRecOn with
  | nil => simp [add_trade_seq]
  | append_singleton ts t ih =>
    have hstep : add_trade_seq L (ts ++ [t]) = add_trade (add_trade_seq L ts) t L := by
      simp [add_trade_seq, List.foldl_append]
    rw [hstep, ih, add_trade_eq_drop, List.length_drop]
    rcases Nat.lt_or_ge ts.length L with hlen | hlen
    · have h2 : ts.length - (ts.length - L) + 1 - L = 0 := by omega
      have h3 : (ts ++ [t]).length - L = 0 := by
        simp only [List.length_append, List.length_singleton]
        omega
      have h1 : ts.length - L = 0 := by omega
      rw [h2, h3, h1, List.drop_zero, List.drop_zero, List.drop_zero]
    · have h1 : ts.length - (ts.length - L) + 1 - L = 1 := by omega
      have h2 : (ts ++ [t]).length - L = (ts.length - L) + 1 := by
        simp only [List.length_append, List.length_singleton]
        omega
      rw [h1, h2]
      rw [List.drop_append_of_le_length (by simp only [List.length_drop]; omega),
          List.drop_append_of_le_length (by omega)]
      rw [List.drop_drop]

theorem get_recent_trades_eq (st : List TradeData) (n : Nat) :
    get_recent_trades (some st) n = (st.drop (st.length - n)).reverse := by
  simp only [get_recent_trades]
  rw [List.reverse_drop]
  rw [List.take_eq_take]
  simp [List.length_reverse]
  omega

/-- Claim C5: starting from the empty per-symbol entry, a sequence of
`add_trade` calls with limit `L > 0` leaves exactly the `min(N, L)` most
recent trades in arrival order (the final suffix of the input sequence), and
`get_recent_trades` returns the last `min(n, stored length)` of the stored
trades newest-first, with the empty list for an absent symbol. -/
theorem trade_store_bounded_fifo (ts : List TradeData) (L : Nat) (hL : 0 < L)
    (st : List TradeData) (n : Nat) :
    (add_trade_seq L ts = ts.drop (ts.length - L)
      ∧ (add_trade_seq L ts).length = min ts.length L)
    ∧ get_recent_trades (some st) n = (st.drop (st.length - n)).reverse
    ∧ get_recent_trades none n = [] := by
  refine ⟨⟨add_trade_seq_eq_drop L hL ts, ?_⟩, get_recent_trades_eq st n, rfl⟩
  rw [add_trade_seq_eq_drop L hL, List.length_drop]
  omega

theorem trade_store_bounded_fifo_witness :
    add_trade_seq 1
        [⟨"BTCUSDT", 100, 1, "buy", 1⟩, ⟨"BTCUSDT", 101, 2, "sell", 2⟩]
      = [⟨"BTCUSDT", 101, 2, "sell", 2⟩]
    ∧ get_recent_trades
        (some [⟨"BTCUSDT", 100, 1, "buy", 1⟩, ⟨"BTCUSDT", 101, 2, "sell", 2⟩]) 1
      = [⟨"BTCUSDT", 101, 2, "sell", 2⟩] :=
  ⟨((trade_store_bounded_fifo
      [⟨"BTCUSDT", 100, 1, "buy", 1⟩, ⟨"BTCUSDT", 101, 2, "sell", 2⟩] 1
      (by decide) [] 0).1.1).trans rfl,
   ((trade_store_bounded_fifo [] 1 (by decide)
      [⟨"BTCUSDT", 100, 1, "buy", 1⟩, ⟨"BTCUSDT", 101, 2, "sell", 2⟩] 1).2.1).trans rfl⟩

/-! ## The deduplication gate -/

theorem mem_dedup_retained {state : DedupState} {now : Nat} {e : String × Nat} :
    e ∈ dedup_retained state now ↔ e ∈ state ∧ now - e.2 < DEDUP_WINDOW_MS := by
  simp [dedup_retained, List.mem_filter]

theorem dedup_step_hit (state : DedupState) (key : String) (now : Nat)
    (h : dedup_hit state key now = true) :
    dedup_step state key now = (false, dedup_retained state now) := by
  simp [dedup_step, h]

theorem dedup_step_miss (state : DedupState) (key : String) (now : Nat)
    (h : dedup_hit state key now = false) :
    dedup_step state key now = (true, (key, now) :: dedup_retained state now) := by
  simp [dedup_step, h]

theorem dedup_hit_of_mem {state : DedupState} {key : String} {now : Nat}
    {e : String × Nat} (hmem : e ∈ dedup_retained state now) (hkey : e.1 = key) :
    dedup_hit state key now = true := by
  simp only [dedup_hit, List.any_eq_true]
  exact ⟨e, hmem, by simp [hkey]⟩

theorem dedup_process_mem :
    ∀ (cs : List (String × Nat)) (state : DedupState) (k : String) (t : Nat) (b : Bool),
      (k, t, b) ∈ dedup_process state cs → (k, t) ∈ cs := by
  intro cs
  induction cs with
  | nil => intro state k t b h; simp [dedup_process] at h
  | cons c rest ih =>
    intro state k t b h
    simp only [dedup_process, List.mem_cons, Prod.mk.injEq] at h
    rcases h with ⟨hk, ht, _⟩ | h
    · exact List.mem_cons.mpr (Or.inl (by rw [hk, ht]))
    · exact List.mem_cons_of_mem _ (ih _ _ _ _ h)

/-- If the dedup table carries an entry for `key` at time `t0`, then any
candidate of that key admitted during a later monotone candidate run is at
least one full window after `t0`. -/
theorem dedup_blocked_gap :
    ∀ (cs : List (String × Nat)) (state : DedupState) (k : String) (t0 : Nat),
      cs.Pairwise (fun a b => a.2 ≤ b.2) →
      (k, t0) ∈ state →
      (∀ c ∈ cs, t0 ≤ c.2) →
      ∀ t2, (k, t2, true) ∈ dedup_process state cs → t0 + DEDUP_WINDOW_MS ≤ t2 := by
  intro cs
  induction cs with
  | nil => intro state k t0 _ _ _ t2 h; simp [dedup_process] at h
  | cons c rest ih =>
    intro state k t0 hpw hmem hle t2 h
    obtain ⟨hle_head, hpw_rest⟩ := List.pairwise_cons.mp hpw
    simp only [dedup_process, List.mem_cons, Prod.mk.injEq] at h
    by_cases hkeep : c.2 - t0 < DEDUP_WINDOW_MS
    · have hret : (k, t0) ∈ dedup_retained state c.2 :=
        mem_dedup_retained.mpr ⟨hmem, hkeep⟩
      by_cases hhit : dedup_hit state c.1 c.2 = true
      · rcases h with ⟨hk, ht, hb⟩ | htail
        · rw [dedup_step_hit _ _ _ hhit] at hb
          simp at hb
        · refine ih _ k t0 hpw_rest ?_ (fun c' hc' => hle c' (List.mem_cons_of_mem _ hc')) t2 htail
          rw [dedup_step_hit _ _ _ hhit]
          exact hret
      · have hhit' : dedup_hit state c.1 c.2 = false := by
          simpa using hhit
        rcases h with ⟨hk, ht, hb⟩ | htail
        · exact absurd (dedup_hit_of_mem hret (by simp [hk])) hhit
        · refine ih _ k t0 hpw_rest ?_ (fun c' hc' => hle c' (List.mem_cons_of_mem _ hc')) t2 htail
          rw [dedup_step_miss _ _ _ hhit']
          exact List.mem_cons_of_mem _ hret
    · have hbound : t0 + DEDUP_WINDOW_MS ≤ c.2 := by
        have := hle c (List.mem_cons_self c rest)
        omega
      rcases h with ⟨hk, ht, hb⟩ | htail
      · omega
      · have hmem2 : (k, t2) ∈ rest := dedup_process_mem rest _ k t2 true htail
        have : c.2 ≤ t2 := hle_head (k, t2) hmem2
        omega

/-- Any two admitted candidates with the same key in one monotone run are at
least one window apart: pairwise over the tagged output. -/
theorem dedup_process_pairwise :
    ∀ (cs : List (String × Nat)) (state : DedupState),
      cs.Pairwise (fun a b => a.2 ≤ b.2) →
      (∀ e ∈ state, ∀ c ∈ cs, e.2 ≤ c.2) →
      (dedup_process state cs).Pairwise
        (fun a b => a.1 = b.1 → a.2.2 = true → b.2.2 = true →
          a.2.1 + DEDUP_WINDOW_MS ≤ b.2.1) := by
  intro cs
  induction cs with
  | nil => intro state _ _; simp [dedup_process]
  | cons c rest ih =>
    intro state hpw hstate
    obtain ⟨hle_head, hpw_rest⟩ := List.pairwise_cons.mp hpw
    simp only [dedup_process]
    refine List.Pairwise.cons ?_ (ih _ hpw_rest ?_)
    · rintro ⟨b1, b2, b3⟩ hb hkey hadm hbadm
      simp only at hkey hadm hbadm
      subst hbadm
      have hmem : (c.1, c.2) ∈ (dedup_step state c.1 c.2).2 := by
        by_cases hhit : dedup_hit state c.1 c.2 = true
        · rw [dedup_step_hit _ _ _ hhit] at hadm
          simp at hadm
        · rw [dedup_step_miss _ _ _ (by simpa using hhit)]
          exact List.mem_cons_self _ _
      rw [← hkey] at hb
      exact dedup_blocked_gap rest _ c.1 c.2 hpw_rest hmem
        (fun c' hc' => hle_head c' hc') b2 hb
    · intro e he c' hc'
      by_cases hhit : dedup_hit state c.1 c.2 = true
      · rw [dedup_step_hit _ _ _ hhit] at he
        exact hstate e (mem_dedup_retained.mp he).1 c' (List.mem_cons_of_mem _ hc')
      · rw [dedup_step_miss _ _ _ (by simpa using hhit)] at he
        rcases List.mem_cons.mp he with heq | hmem
        · rw [heq]
          exact hle_head c' hc'
        · exact hstate e (mem_dedup_retained.mp hmem).1 c' (List.mem_cons_of_mem _ hc')

/-- Every entry of the dedup table after a run from the empty table records an
admitted candidate of that run. -/
theorem dedup_final_state_mem :
    ∀ (cs : List (String × Nat)) (state : DedupState) (e : String × Nat),
      e ∈ dedup_final_state state cs →
      (e.1, e.2, true) ∈ dedup_process state cs ∨ e ∈ state := by
  intro cs
  induction cs with
  | nil => intro state e h; right; simpa [dedup_final_state] using h
  | cons c rest ih =>
    intro state e h
    simp only [dedup_final_state] at h
    rcases ih _ e h with hout | hstate'
    · left
      simp only [dedup_process, List.mem_cons]
      exact Or.inr hout
    · by_cases hhit : dedup_hit state c.1 c.2 = true
      · rw [dedup_step_hit _ _ _ hhit] at hstate'
        exact Or.inr (mem_dedup_retained.mp hstate').1
      · rw [dedup_step_miss _ _ _ (by simpa using hhit)] at hstate'
        rcases List.mem_cons.mp hstate' with heq | hmem
        · left
          simp only [dedup_process, List.mem_cons]
          left
          rw [heq, dedup_step_miss _ _ _ (by simpa using hhit)]
        · exact Or.inr (mem_dedup_retained.mp hmem).1

/-- A candidate arriving a full window after every prior admission of its key
is admitted. -/
theorem dedup_readmitted (cs1 : List (String × Nat)) (k : String) (t : Nat)
    (h : ∀ t1, (k, t1, true) ∈ dedup_process [] cs1 → t1 + DEDUP_WINDOW_MS ≤ t) :
    (dedup_step (dedup_final_state [] cs1) k t).1 = true := by
  have hhit : dedup_hit (dedup_final_state [] cs1) k t = false := by
    by_contra hcon
    have hcon' : dedup_hit (dedup_final_state [] cs1) k t = true := by
      simpa using hcon
    simp only [dedup_hit, List.any_eq_true] at hcon'
    obtain ⟨e, hmem, hkey⟩ := hcon'
    obtain ⟨hfin, hwin⟩ := mem_dedup_retained.mp hmem
    have hkey' : e.1 = k := by simpa using hkey
    rcases dedup_final_state_mem cs1 [] e hfin with hout | habs
    · have := h e.2 (by rw [← hkey']; exact hout)
      omega
    · simp at habs
  rw [dedup_step_miss _ _ _ hhit]

/-- Claim C6: over any time-ordered candidate sequence fed to the dedup gate
starting from the empty table, (a) any two admitted candidates sharing a
`(symbol, signal_type)` key are at least `DEDUP_WINDOW_MS` apart, and (b) a
candidate arriving a full window or more after every earlier admission of its
key is always admitted. -/
theorem dedup_gate_rolling_window (cs : List (String × Nat))
    (hmono : cs.Pairwise (fun a b => a.2 ≤ b.2)) :
    (dedup_process [] cs).Pairwise
      (fun a b => a.1 = b.1 → a.2.2 = true → b.2.2 = true →
        a.2.1 + DEDUP_WINDOW_MS ≤ b.2.1)
    ∧ ∀ cs1 k t cs2, cs = cs1 ++ (k, t) :: cs2 →
        (∀ t1, (k, t1, true) ∈ dedup_process [] cs1 → t1 + DEDUP_WINDOW_MS ≤ t) →
        (dedup_step (dedup_final_state [] cs1) k t).1 = true := by
  refine ⟨dedup_process_pairwise cs [] hmono (by simp), ?_⟩
  intro cs1 k t cs2 _ h
  exact dedup_readmitted cs1 k t h

theorem dedup_gate_rolling_window_witness :
    (dedup_step
        (dedup_final_state [] [("BTCUSDT_StrongBuy", 0), ("BTCUSDT_StrongBuy", 1000)])
        "BTCUSDT_StrongBuy" 5000).1 = true := by
  refine (dedup_gate_rolling_window
      [("BTCUSDT_StrongBuy", 0), ("BTCUSDT_StrongBuy", 1000), ("BTCUSDT_StrongBuy", 5000)]
      (by decide)).2
    [("BTCUSDT_StrongBuy", 0), ("BTCUSDT_StrongBuy", 1000)] "BTCUSDT_StrongBuy" 5000 []
    rfl ?_
  intro t1 h
  have hev : dedup_process [] [("BTCUSDT_StrongBuy", 0), ("BTCUSDT_StrongBuy", 1000)]
      = [("BTCUSDT_StrongBuy", 0, true), ("BTCUSDT_StrongBuy", 1000, false)] := by
    decide
  rw [hev] at h
  simp only [List.mem_cons, List.mem_singleton, Prod.mk.injEq] at h
  rcases h with ⟨_, ht, _⟩ | h
  · rw [ht]
    decide
  · simp at h

/-- Claim C7: the buy-stacked detector (with its fixed constants L=5, K=3)
returns true exactly when there are at least 5 bid levels, at least one ask,
the top-ask notional is non-zero, and at least 3 of the first 5 bid levels
have notional at least `threshold` times the top-ask notional. -/
theorem stacked_buy_characterization (order_book : OrderBookSnapshot) (threshold : ℚ) :
    detect_stacked_buy_imbalance order_book threshold = true ↔
      (5 ≤ order_book.bids.length ∧ order_book.asks ≠ []
        ∧ top_ask_size order_book ≠ 0
        ∧ 3 ≤ ((List.range 5).filter
            (fun i => decide (threshold ≤ bid_size_at order_book i / top_ask_size order_book))).length) := by
  unfold detect_stacked_buy_imbalance detect_stacked_buy_imbalance_advanced
  split_ifs with h1 h2
  · constructor
    · intro h
      simp at h
    · intro ⟨hlen, hasks, _, _⟩
      rcases h1 with h1 | h1
      · omega
      · exact absurd (List.isEmpty_iff.mp h1) hasks
  · constructor
    · intro h
      simp at h
    · intro ⟨_, _, hA, _⟩
      exact absurd h2 hA
  · push_neg at h1
    obtain ⟨hlen, hasks⟩ := h1
    have hlen' : 5 ≤ order_book.bids.length := by omega
    have hmin : min 5 order_book.bids.length = 5 := by omega
    rw [hmin]
    simp only [decide_eq_true_eq]
    constructor
    · intro h
      exact ⟨hlen', fun hnil => by simp [hnil] at hasks, h2, h⟩
    · intro ⟨_, _, _, h⟩
      exact h

theorem stacked_buy_characterization_witness :
    detect_stacked_buy_imbalance
        ⟨"BTCUSDT",
          [⟨100, 10⟩, ⟨99, 10⟩, ⟨98, 10⟩, ⟨97, 10⟩, ⟨96, 10⟩],
          [⟨101, 1⟩], 1000⟩ 5 = true :=
  (stacked_buy_characterization
      ⟨"BTCUSDT",
        [⟨100, 10⟩, ⟨99, 10⟩, ⟨98, 10⟩, ⟨97, 10⟩, ⟨96, 10⟩],
        [⟨101, 1⟩], 1000⟩ 5).mpr
    (by
      refine ⟨by norm_num, by simp, ?_, ?_⟩
      · norm_num [top_ask_size]
      · norm_num [List.filter, bid_size_at, top_ask_size])

/-- Claim C8: characterization of the absorption detector.  With empty bids
or an empty trades view it reports no detection; otherwise it emits Buy
exactly when `delta < -delta_threshold` and the best bid did not drop below
`prev_best_bid`, emits Sell exactly when the Buy branch did not fire,
`delta > delta_threshold` and the best bid did not rise above
`prev_best_bid`, reports NoSignal in all remaining cases, and the detection
flag is set exactly on the Buy/Sell outcomes. -/
theorem absorption_characterization (order_book : OrderBookSnapshot)
    (trades : List TradeData) (m : OFIMetrics) (p : StrategyParams) :
    ((order_book.bids = [] ∨ trades = []) →
      detect_absorption order_book trades m p = (false, "", SignalType.NoSignal))
    ∧ (order_book.bids ≠ [] → trades ≠ [] →
        (((detect_absorption order_book trades m p).2.2 = SignalType.Buy) ↔
          (m.delta < -p.delta_threshold ∧ prev_best_bid_of order_book ≤ best_bid_of order_book))
        ∧ (((detect_absorption order_book trades m p).2.2 = SignalType.Sell) ↔
          (¬(m.delta < -p.delta_threshold ∧ prev_best_bid_of order_book ≤ best_bid_of order_book)
            ∧ p.delta_threshold < m.delta ∧ best_bid_of order_book ≤ prev_best_bid_of order_book))
        ∧ (((detect_absorption order_book trades m p).2.2 = SignalType.NoSignal) ↔
          (¬(m.delta < -p.delta_threshold ∧ prev_best_bid_of order_book ≤ best_bid_of order_book)
            ∧ ¬(p.delta_threshold < m.delta ∧ best_bid_of order_book ≤ prev_best_bid_of order_book)))
        ∧ ((detect_absorption order_book trades m p).1 = true ↔
          (detect_absorption order_book trades m p).2.2 ≠ SignalType.NoSignal)) := by
  constructor
  · intro h
    have hcond : order_book.bids.isEmpty = true ∨ trades.isEmpty = true := by
      rcases h with h | h <;> simp [h]
    simp only [detect_absorption]
    rw [if_pos hcond]
  · intro hbids htrades
    have hcond : ¬(order_book.bids.isEmpty = true ∨ trades.isEmpty = true) := by
      simp [hbids, htrades]
    simp only [detect_absorption]
    rw [if_neg hcond]
    by_cases hbuy : m.delta < -p.delta_threshold ∧ prev_best_bid_of order_book ≤ best_bid_of order_book
    · rw [if_pos hbuy]
      refine ⟨by simp [hbuy], by simp [hbuy], by simp [hbuy], by simp⟩
    · rw [if_neg hbuy]
      by_cases hsell : p.delta_threshold < m.delta ∧ best_bid_of order_book ≤ prev_best_bid_of order_book
      · rw [if_pos hsell]
        exact ⟨iff_of_false (by simp) hbuy,
          iff_of_true rfl ⟨hbuy, hsell⟩,
          iff_of_false (by simp) (fun ⟨_, h⟩ => h hsell),
          by simp⟩
      · rw [if_neg hsell]
        exact ⟨iff_of_false (by simp) hbuy,
          iff_of_false (by simp) (fun ⟨_, h⟩ => hsell h),
          iff_of_true rfl ⟨hbuy, hsell⟩,
          by simp⟩

theorem absorption_characterization_witness :
    (detect_absorption ⟨"BTCUSDT", [⟨100, 1⟩], [⟨101, 1⟩], 1000⟩
        [⟨"BTCUSDT", 100, 20, "sell", 990⟩]
        ⟨"BTCUSDT", -2000, -2000, 0, 0, 1000⟩
        ⟨1, 1, 500, 1000, 1⟩).2.2 = SignalType.Buy := by
  refine ((absorption_characterization ⟨"BTCUSDT", [⟨100, 1⟩], [⟨101, 1⟩], 1000⟩
      [⟨"BTCUSDT", 100, 20, "sell", 990⟩]
      ⟨"BTCUSDT", -2000, -2000, 0, 0, 1000⟩
      ⟨1, 1, 500, 1000, 1⟩).2 (by simp) (by simp)).1.mpr ?_
  constructor
  · norm_num
  · norm_num [prev_best_bid_of, best_bid_of]

/-- Claim C9: whenever rule 1 (buy-stacked with delta above the adjusted
threshold) and rule 3 (the absorption detector fires) hold simultaneously,
the rule engine emits StrongBuy with the strong-signal confidence — rule 1
wins by evaluation order; moreover every emitted signal carries the
mid-price in its `price` field and the metrics timestamp in its `timestamp`
field. -/
theorem rule_priority_and_signal_fields (order_book : OrderBookSnapshot)
    (trades : List TradeData) (params : StrategyParams) (sc rc ec : ℚ) :
    (detect_signals order_book trades params sc rc ec).price = current_price_of order_book
    ∧ (detect_signals order_book trades params sc rc ec).timestamp
        = (calculate_ofi_metrics order_book trades params.lookback_period_ms).timestamp
    ∧ (detect_stacked_buy_imbalance order_book
          (params.imbalance_threshold * params.market_condition_multiplier) = true →
        params.delta_threshold * params.market_condition_multiplier
            < (calculate_ofi_metrics order_book trades params.lookback_period_ms).delta →
        (detect_absorption order_book trades
            (calculate_ofi_metrics order_book trades params.lookback_period_ms)
            (adjusted_params_of params)).1 = true →
        (detect_signals order_book trades params sc rc ec).signal_type = SignalType.StrongBuy
          ∧ (detect_signals order_book trades params sc rc ec).confidence = sc) := by
  refine ⟨?_, ?_, ?_⟩
  · simp only [detect_signals]
    split_ifs <;> rfl
  · simp only [detect_signals]
    split_ifs <;> rfl
  · intro h1 h2 _
    have hcond : (detect_stacked_imbalances order_book
        (params.imbalance_threshold * params.market_condition_multiplier)).1 = true := h1
    simp only [detect_signals]
    rw [if_pos ⟨hcond, h2⟩]
    exact ⟨rfl, rfl⟩

theorem rule_priority_witness :
    (detect_signals
        ⟨"BTCUSDT",
          [⟨100, 10⟩, ⟨100, 10⟩, ⟨100, 10⟩, ⟨100, 10⟩, ⟨100, 10⟩],
          [⟨101, 1⟩], 10000⟩
        [⟨"BTCUSDT", 100, 1, "buy", 10000⟩]
        ⟨1, 1, 50, 1000, 1⟩ 1 2 3).signal_type = SignalType.StrongBuy
    ∧ (detect_signals
        ⟨"BTCUSDT",
          [⟨100, 10⟩, ⟨100, 10⟩, ⟨100, 10⟩, ⟨100, 10⟩, ⟨100, 10⟩],
          [⟨101, 1⟩], 10000⟩
        [⟨"BTCUSDT", 100, 1, "buy", 10000⟩]
        ⟨1, 1, 50, 1000, 1⟩ 1 2 3).confidence = 1 := by
  refine (rule_priority_and_signal_fields
      ⟨"BTCUSDT",
        [⟨100, 10⟩, ⟨100, 10⟩, ⟨100, 10⟩, ⟨100, 10⟩, ⟨100, 10⟩],
        [⟨101, 1⟩], 10000⟩
      [⟨"BTCUSDT", 100, 1, "buy", 10000⟩]
      ⟨1, 1, 50, 1000, 1⟩ 1 2 3).2.2 ?_ ?_ ?_
  · norm_num [detect_stacked_buy_imbalance, detect_stacked_buy_imbalance_advanced,
      top_ask_size, bid_size_at, List.filter]
  · norm_num [calculate_ofi_metrics, lookback_filter, calculate_delta,
      calculate_delta_aux, List.filter]
  · norm_num [detect_absorption, best_bid_of, prev_best_bid_of, adjusted_params_of,
      calculate_ofi_metrics, lookback_filter, calculate_delta, calculate_delta_aux,
      calculate_cumulative_delta, calculate_cumulative_delta_aux, List.filter]

/-- Claim C10: when both best quotes are positive the engine's current price
is the arithmetic mid and lies strictly between them whenever the book is
proper (`best_bid < best_ask`); when at most one side is positive it is the
larger of the two. -/
theorem mid_price_characterization (order_book : OrderBookSnapshot) :
    (0 < best_bid_px order_book → 0 < best_ask_px order_book →
      current_price_of order_book
          = (best_bid_px order_book + best_ask_px order_book) / 2
      ∧ (best_bid_px order_book < best_ask_px order_book →
          best_bid_px order_book < current_price_of order_book
          ∧ current_price_of order_book < best_ask_px order_book))
    ∧ (¬(0 < best_bid_px order_book ∧ 0 < best_ask_px order_book) →
        current_price_of order_book
          = max (best_bid_px order_book) (best_ask_px order_book)) := by
  constructor
  · intro hb ha
    have hcond : 0 < best_bid_px order_book ∧ 0 < best_ask_px order_book := ⟨hb, ha⟩
    rw [current_price_of, if_pos hcond]
    refine ⟨rfl, fun hlt => ⟨by linarith, by linarith⟩⟩
  · intro h
    rw [current_price_of, if_neg h]

theorem mid_price_characterization_witness :
    current_price_of ⟨"BTCUSDT", [⟨100, 1⟩], [⟨101, 1⟩], 0⟩
        = (best_bid_px ⟨"BTCUSDT", [⟨100, 1⟩], [⟨101, 1⟩], 0⟩
            + best_ask_px ⟨"BTCUSDT", [⟨100, 1⟩], [⟨101, 1⟩], 0⟩) / 2
    ∧ best_bid_px ⟨"BTCUSDT", [⟨100, 1⟩], [⟨101, 1⟩], 0⟩
        < current_price_of ⟨"BTCUSDT", [⟨100, 1⟩], [⟨101, 1⟩], 0⟩ := by
  have h := (mid_price_characterization ⟨"BTCUSDT", [⟨100, 1⟩], [⟨101, 1⟩], 0⟩).1
    (by norm_num [best_bid_px]) (by norm_num [best_ask_px])
  exact ⟨h.1, (h.2 (by norm_num [best_bid_px, best_ask_px])).1⟩

end OFI
